import Mathlib

/-!
Shallow embedding of the deepseek-local-clone-helper repository
(Python scripts that mirror a Hugging Face organization: download,
archive, extract, verify, delete).  Python strings are modelled as
`String`/`List Char`; filesystem state as explicit records; external
subprocess and network calls as Boolean outcome oracles; raised Python
exceptions as `Except`.
-/

namespace DSHelper

/-- Python `str.replace(pat, repl)` on character lists: scan left to
right, replacing each leftmost non-overlapping occurrence of `pat`.
`fuel` bounds the recursion; it is always called with `fuel = s.length`,
which suffices because each step consumes at least one character when
`pat` is nonempty. -/
def pyReplaceAux (pat repl : List Char) : Nat → List Char → List Char
  | 0, s => s
  | fuel + 1, s =>
    match s with
    | [] => []
    | c :: rest =>
      if pat ≠ [] ∧ pat.isPrefixOf (c :: rest) then
        repl ++ pyReplaceAux pat repl fuel ((c :: rest).drop pat.length)
      else
        c :: pyReplaceAux pat repl fuel rest

/-- Python `s.replace(pat, repl)` for strings. -/
def pyReplace (s pat repl : String) : String :=
  ⟨pyReplaceAux pat.data repl.data s.data.length s.data⟩

/-- `pat` occurs as a contiguous substring of `s`. -/
def containsSub (pat : List Char) : List Char → Bool
  | [] => pat.isEmpty
  | c :: rest => pat.isPrefixOf (c :: rest) || containsSub pat rest

/-- Python `str.lower()`; `Char.toLower`, like Python on ASCII input,
maps `A`-`Z` to `a`-`z` (all confirmation phrases in the scripts are
ASCII). -/
def pyLower (s : String) : String :=
  ⟨s.data.map Char.toLower⟩

/-- Python `str.split(sep)` for a one-character separator. -/
def splitOnChar (sep : Char) : List Char → List (List Char)
  | [] => [[]]
  | c :: rest =>
    match splitOnChar sep rest with
    | [] => [[c]]
    | h :: t => if c = sep then [] :: h :: t else (c :: h) :: t

/-- Python `id.split('/')[-1]` (the split is never empty). -/
def lastSegment (sep : Char) (s : List Char) : List Char :=
  (splitOnChar sep s).getLastD []

def slashStr : String := "/"

def underscoreStr : String := "_"

def emptyStr : String := ""

def bundleExtStr : String := ".bundle"

def bundleExtL : List Char := bundleExtStr.data

namespace UtilsCommon

/-- `utils/common.py  RepoManager.get_archive_path`: the bundle file
name placed in the archives directory,
`repo_id.replace('/', '_') + '.bundle'`.  Paths are modelled by the
file name; the archives directory is a fixed constant prefix shared by
every operation. -/
def get_archive_filename (repoId : String) : String :=
  pyReplace repoId slashStr underscoreStr ++ bundleExtStr

/-- `utils/common.py  RepoManager.get_downloaded_repos`: from the list
of file names in the archives directory, keep those ending in
`.bundle` and map each through
`f.replace('.bundle', '').replace('_', '/')`. -/
def get_downloaded_repos (files : List String) : List String :=
  (files.filter (fun f => bundleExtL.isSuffixOf f.data)).map
    (fun f => pyReplace (pyReplace f bundleExtStr emptyStr) underscoreStr slashStr)

end UtilsCommon

namespace CleanHfAccount

/-- The phrase the guard in `clean_hf_account.py  delete_all_repos`
compares against after lowercasing the user's input. -/
def requiredPhrase : String := "yes_delete_all"

/-- The phrase the command-line prompt asks the user to type
(`Type 'YES_DELETE_ALL' to confirm:`). -/
def promptedPhrase : String := "YES_DELETE_ALL"

/-- The repository kinds enumerated by `delete_all_repos`. -/
inductive RepoKind
  | model
  | dataset
  | space
deriving DecidableEq

/-- `clean_hf_account.py` lines 16-37: for each repo kind, list the
owner's repositories (a listing error for one kind is caught and that
kind contributes nothing), then keep `repo.id.split('/')[-1]` paired
with the kind.  The remote listing is an oracle per kind. -/
def collectRepos (listings : RepoKind → Except Unit (List String)) :
    List (String × RepoKind) :=
  [RepoKind.model, RepoKind.dataset, RepoKind.space].flatMap (fun k =>
    match listings k with
    | Except.ok ids => ids.map (fun id => (⟨lastSegment '/' id.data⟩, k))
    | Except.error _ => [])

/-- Number of `api.delete_repo` attempts made for one repository by the
retry loop (`for attempt in range(3)`): stop after the first success,
otherwise all three attempts run and the final failure is caught by the
per-repository handler, which continues the loop. -/
def attemptsUsed (ok : Nat → Bool) : Nat :=
  if ok 0 then 1 else if ok 1 then 2 else 3

/-- `clean_hf_account.py  delete_all_repos`, lines 8-66, modelled as the
list of `api.delete_repo` calls it performs (one entry per attempt).
Guard: `if confirmation.lower() != "yes_delete_all": ... return`
performs no calls; an empty enumeration also returns early
(`No repositories found`). -/
def delete_all_repos (confirmation : String)
    (listings : RepoKind → Except Unit (List String))
    (ok : String × RepoKind → Nat → Bool) : List (String × RepoKind) :=
  if pyLower confirmation ≠ requiredPhrase then []
  else
    let total := collectRepos listings
    if total.isEmpty then []
    else total.flatMap (fun r => List.replicate (attemptsUsed (ok r)) r)

end CleanHfAccount

namespace VerifyRepos

def statusValid : String := "valid"

def statusInvalid : String := "invalid"

def statusMissing : String := "missing"

def bundleMissingMsg : String := "Bundle file missing"

/-- The per-repository verification record built by
`verify_repos.py  verify_repository` (lines 115-138), extended with an
effect flag `ranVerify` recording whether the `git bundle verify`
subprocess (`verify_bundle`) was invoked. -/
structure Verification where
  valid_bundle : Bool
  errors : List String
  status : String
  ranVerify : Bool
deriving DecidableEq

/-- `verify_repos.py  verify_repository`: a nonexistent bundle path is
reported as status `missing` without calling `verify_bundle`; an
existing bundle is handed to `verify_bundle` (modelled by the oracle
`bundleVerify : Bool × String`, the subprocess outcome and its parsed
`error:` line) and classified `valid` or `invalid`. -/
def verify_repository (bundleExists : Bool) (bundleVerify : Bool × String) :
    Verification :=
  if bundleExists then
    if bundleVerify.1 then
      { valid_bundle := true, errors := [], status := statusValid,
        ranVerify := true }
    else
      { valid_bundle := false, errors := [bundleVerify.2],
        status := statusInvalid, ranVerify := true }
  else
    { valid_bundle := false, errors := [bundleMissingMsg],
      status := statusMissing, ranVerify := false }

/-- The `results` dictionary accumulated by `verify_repos.py  main`
(lines 150-180). -/
structure VerifyResults where
  valid : List String
  invalid : List String
  missing : List String
  lfs_repos : List String
  failure_reasons : List (String × List String)

/-- One iteration of the classification loop in `verify_repos.py  main`
(lines 168-180): `missing` status goes to `results["missing"]`; a valid
bundle is appended to both `results["valid"]` and
`results["lfs_repos"]`; anything else goes to `results["invalid"]` with
its failure reasons. -/
def verifyStep (acc : VerifyResults) (r : String × Bool × (Bool × String)) :
    VerifyResults :=
  let v := verify_repository r.2.1 r.2.2
  if v.status = statusMissing then
    { acc with missing := acc.missing ++ [r.1] }
  else if v.valid_bundle then
    { acc with valid := acc.valid ++ [r.1],
               lfs_repos := acc.lfs_repos ++ [r.1] }
  else
    { acc with invalid := acc.invalid ++ [r.1],
               failure_reasons := acc.failure_reasons ++ [(r.1, v.errors)] }

/-- The whole classification loop of `verify_repos.py  main` over the
downloaded repositories, each given with its bundle-existence flag and
`verify_bundle` oracle outcome. -/
def run_verification (rs : List (String × Bool × (Bool × String))) :
    VerifyResults :=
  rs.foldl verifyStep ⟨[], [], [], [], []⟩

end VerifyRepos

namespace RepoSizes

/-- Insert an element into a sorted list, before the first element `b`
with `le a b`.  Together with `sortLe` this is a stable sort; a stable
sort's output is unique, so this coincides with Python's stable
`list.sort`. -/
def insertLe (le : α → α → Bool) (a : α) : List α → List α
  | [] => [a]
  | b :: bs => if le a b then a :: b :: bs else b :: insertLe le a bs

/-- Stable insertion sort (observably equal to Python `list.sort` with
the same key order). -/
def sortLe (le : α → α → Bool) : List α → List α
  | [] => []
  | a :: as => insertLe le a (sortLe le as)

/-- Python `list.sort(key=..., reverse=...)` for a `Nat`-valued key:
stable, ascending on the key, or descending when `reverse` is set
(equal keys keep their original relative order either way). -/
def pySortByKey (key : α → Nat) (reverse : Bool) (l : List α) : List α :=
  sortLe (fun a b =>
    if reverse then Nat.ble (key b) (key a) else Nat.ble (key a) (key b)) l

def descStr : String := "desc"

def ascStr : String := "asc"

/-- The sorting step of `repo_sizes.py  get_deepseek_repo_sizes`
(lines 41-45): `repo_sizes.sort(key=lambda x: x[1],
reverse=(sort_by.lower() == 'desc'))` applied to the fetched
`(modelId, total_size)` list.  `download_deepseek_repos.py  main`
(lines 97-100) performs the same `repos.sort(key=..., reverse=
(args.sort == 'desc'))` on its listing, modelled by the same function. -/
def get_deepseek_repo_sizes (sortBy : String) (fetched : List (String × Nat)) :
    List (String × Nat) :=
  pySortByKey (fun x => x.2) (decide (pyLower sortBy = descStr)) fetched

end RepoSizes

namespace DownloadRepos

/-- External actions performed by
`deepseek_manager/scripts/download_repos.py  download_repo`:
the authenticated working clone, then inside `download_repository` the
bare clone, `symbolic-ref` branch query and `bundle create`, and the
network calls made while assembling metadata (`check_lfs_usage` and
`estimate_repo_size`, both of which swallow their own errors). -/
inductive DlAction
  | gitClone
  | gitCloneBare
  | gitSymbolicRef
  | gitBundleCreate
  | netLfsCheck
  | netSizeEstimate
deriving DecidableEq

/-- The filesystem locations `download_repo` touches: the archive
(bundle) file, the metadata file (recorded as the `repo_id` it
contains, `none` when absent), the two temporary clone directories
(`download_repo`'s and `download_repository`'s), and all other
locations, indexed abstractly. -/
structure DlFS where
  archive : Bool
  meta : Option String
  scratch : Bool
  scratch2 : Bool
  other : Nat → Bool

/-- `download_repos.py  download_repository` (lines 126-164): inside a
`tempfile.TemporaryDirectory` (modelled as `scratch2`), bare-clone,
read the default branch, and `git bundle create` the archive.  A
`CalledProcessError` at any of the three steps is caught: the bundle is
unlinked if present and `False` is returned.  The temporary directory
is removed by the `with` block on every path. -/
def download_repository (icloneOk ibranchOk ibundleOk : Bool) (fs : DlFS) :
    Bool × DlFS × List DlAction :=
  let fs1 := { fs with scratch2 := true }
  if ¬ icloneOk then
    (false, { fs1 with archive := false, scratch2 := false },
      [DlAction.gitCloneBare])
  else if ¬ ibranchOk then
    (false, { fs1 with archive := false, scratch2 := false },
      [DlAction.gitCloneBare, DlAction.gitSymbolicRef])
  else if ¬ ibundleOk then
    (false, { fs1 with archive := false, scratch2 := false },
      [DlAction.gitCloneBare, DlAction.gitSymbolicRef,
        DlAction.gitBundleCreate])
  else
    (true, { fs1 with archive := true, scratch2 := false },
      [DlAction.gitCloneBare, DlAction.gitSymbolicRef,
        DlAction.gitBundleCreate])

/-- `download_repos.py  download_repo` (lines 166-234).  If the archive
already exists the call returns `True` at once (only a skip message is
printed; no subprocess or network action, no state change).  Otherwise
a `tempfile.TemporaryDirectory` scratch clone is made (oracle
`cloneOk` covers the clone and the `.git` structure check; on failure
the `except` block unlinks the archive and metadata paths and returns
`False`), then `download_repository` builds the bundle (on its `False`
return, `download_repo` returns `False` at line 206 without touching
the metadata path), then the metadata record is assembled and written
(`metaOk` covers the `stat`/hash/`git --version`/`json.dump` steps; the
two network helpers within never raise; on failure the `except` block
unlinks both files).  The `with` block and the `finally:
safe_delete(temp_path)` remove the scratch directory on every path. -/
def download_repo (repoId : String)
    (cloneOk icloneOk ibranchOk ibundleOk metaOk : Bool) (fs : DlFS) :
    Bool × DlFS × List DlAction :=
  if fs.archive then (true, fs, [])
  else
    let fs1 := { fs with scratch := true }
    if ¬ cloneOk then
      (false, { fs1 with meta := none, scratch := false },
        [DlAction.gitClone])
    else
      match download_repository icloneOk ibranchOk ibundleOk fs1 with
      | (true, fs2, acts) =>
        if metaOk then
          (true, { fs2 with meta := some repoId, scratch := false },
            DlAction.gitClone :: acts ++
              [DlAction.netLfsCheck, DlAction.netSizeEstimate])
        else
          (false,
            { fs2 with archive := false, meta := none, scratch := false },
            DlAction.gitClone :: acts ++
              [DlAction.netLfsCheck, DlAction.netSizeEstimate])
      | (false, fs2, acts) =>
        (false, { fs2 with scratch := false }, DlAction.gitClone :: acts)

/-- `download_repos.py  get_deepseek_repos` (lines 60-71): the remote
listing call is an oracle; an exception is caught, the error printed,
and the empty list returned. -/
def get_deepseek_repos (api : Except String (List String)) : List String :=
  match api with
  | Except.ok repos => repos
  | Except.error _ => []

/-- Outcome of the listing phase of `download_repos.py  main`
(lines 246-251). -/
inductive ListPhaseOutcome
  | exitNoRepos
  | proceed (repos : List String)
deriving DecidableEq

/-- `download_repos.py  main`, lines 246-251: fetch the listing; if it
is empty, print `No repositories found or error fetching repository
list.` and return normally; otherwise proceed to the download phase. -/
def main_list_phase (api : Except String (List String)) : ListPhaseOutcome :=
  let repos := get_deepseek_repos api
  if repos.isEmpty then ListPhaseOutcome.exitNoRepos
  else ListPhaseOutcome.proceed repos

end DownloadRepos

namespace RootDownload

/-- The locations touched by `download_deepseek_repos.py
download_repo`: the output archive `<slug>.tar.gz`, its `.tmp`
staging file, and everything else. -/
structure TarFS where
  out : Bool
  tmp : Bool
  other : Nat → Bool

inductive TarAction
  | netGet
deriving DecidableEq

def unboundLocalMsg : String := "UnboundLocalError: temp_path"

/-- `download_deepseek_repos.py  download_repo` (lines 40-73).  If the
output archive exists and `force` is not set, return `True` with no
request made.  Otherwise stream the archive: a failure in
`requests.get`/`raise_for_status` (oracle `getOk`) raises before
`temp_path` is assigned, so the `except` block itself raises an
unbound-local error; a failure while writing (oracle `writeOk`) removes
the `.tmp` file and returns `False`; on success the `.tmp` file is
moved onto the output path. -/
def download_repo (force getOk writeOk : Bool) (fs : TarFS) :
    Except String Bool × TarFS × List TarAction :=
  if fs.out ∧ ¬ force then (Except.ok true, fs, [])
  else if ¬ getOk then
    (Except.error unboundLocalMsg, fs, [TarAction.netGet])
  else if writeOk then
    (Except.ok true, { fs with out := true, tmp := false },
      [TarAction.netGet])
  else
    (Except.ok false, { fs with tmp := false }, [TarAction.netGet])

/-- `download_deepseek_repos.py  get_deepseek_repos` (lines 11-38): on
a `RequestException` from the listing call the error is printed and
`sys.exit(1)` terminates the process, modelled as `Except.error` with
the exit code. -/
def get_deepseek_repos (api : Except String (List (String × Nat))) :
    Except Nat (List (String × Nat)) :=
  match api with
  | Except.ok repos => Except.ok repos
  | Except.error _ => Except.error 1

end RootDownload

namespace SelectiveExtract

/-- `scripts/common.py  RepoManager`: `get_archive_path` places
`<slug>.bundle` under `deepseek_storage/archives`. -/
def archivesDirStr : String := "deepseek_storage/archives/"

def get_archive_path (repoId : String) : String :=
  archivesDirStr ++ pyReplace repoId slashStr underscoreStr ++ bundleExtStr

def lfsExtStr : String := ".lfs"

/-- The message of the `FileNotFoundError` raised by
`selective_extract.py  extract_from_bundle` when the companion LFS
bundle is absent. -/
def missingLfsMsg (bundlePath : String) : String :=
  "Missing LFS bundle: " ++ bundlePath ++ lfsExtStr

def cloneErrMsg : String := "CalledProcessError: git clone"

def importErrMsg : String := "CalledProcessError: git lfs bundle import"

def checkoutErrMsg : String := "CalledProcessError: git lfs checkout"

/-- `selective_extract.py  extract_from_bundle` (lines 87-115): after
creating the target directory, raise `FileNotFoundError` if
`bundle_path + ".lfs"` does not exist; then run three `check=True`
subprocesses (clone, LFS import, LFS checkout), each of which raises
`CalledProcessError` on failure; return `True` otherwise.  The
function never returns `False`.  Raised exceptions are `Except.error`;
the target-directory `mkdir` touches no state this model tracks. -/
def extract_from_bundle (bundlePath : String)
    (lfsExists cloneOk importOk checkoutOk : Bool) : Except String Bool :=
  if ¬ lfsExists then Except.error (missingLfsMsg bundlePath)
  else if ¬ cloneOk then Except.error cloneErrMsg
  else if ¬ importOk then Except.error importErrMsg
  else if ¬ checkoutOk then Except.error checkoutErrMsg
  else Except.ok true

/-- Per-slug filesystem and subprocess oracles for the batch
extraction: the stems of bundles present in the archives directory
(`RepoManager.get_downloaded_repos` of `scripts/common.py`), whether
each extraction directory already exists, whether each companion
`.lfs` bundle exists, and the three subprocess outcomes. -/
structure ExtractEnv where
  downloaded : List String
  extractedExists : String → Bool
  lfsExists : String → Bool
  cloneOk : String → Bool
  importOk : String → Bool
  checkoutOk : String → Bool

/-- The counters printed by `selective_extract.py
extract_selected_repos`. -/
structure ExtractSummary where
  successful : Nat
  failed : Nat
  skipped : Nat
  notFound : Nat
deriving DecidableEq

/-- The loop of `selective_extract.py  extract_selected_repos`
(lines 21-42).  Returns the list of repository ids the loop reached,
and either the final summary or the exception that escaped the loop
(no `try` surrounds the `extract_from_bundle` call, so a raise
propagates and the remaining ids are never visited). -/
def extract_selected_loop (env : ExtractEnv) :
    List String → ExtractSummary → List String × Except String ExtractSummary
  | [], acc => ([], Except.ok acc)
  | repoId :: rest, acc =>
    let slug := pyReplace repoId slashStr underscoreStr
    if slug ∉ env.downloaded then
      let r := extract_selected_loop env rest
        { acc with notFound := acc.notFound + 1 }
      (repoId :: r.1, r.2)
    else if env.extractedExists slug then
      let r := extract_selected_loop env rest
        { acc with skipped := acc.skipped + 1 }
      (repoId :: r.1, r.2)
    else
      match extract_from_bundle (get_archive_path repoId) (env.lfsExists slug)
          (env.cloneOk slug) (env.importOk slug) (env.checkoutOk slug) with
      | Except.error e => ([repoId], Except.error e)
      | Except.ok b =>
        if b then
          let r := extract_selected_loop env rest
            { acc with successful := acc.successful + 1 }
          (repoId :: r.1, r.2)
        else
          let r := extract_selected_loop env rest
            { acc with failed := acc.failed + 1 }
          (repoId :: r.1, r.2)

/-- `selective_extract.py  extract_selected_repos`: run the loop from
zeroed counters. -/
def extract_selected_repos (env : ExtractEnv) (repoIds : List String) :
    List String × Except String ExtractSummary :=
  extract_selected_loop env repoIds ⟨0, 0, 0, 0⟩

end SelectiveExtract

/-! Concrete inputs used by witnesses and counterexamples. -/

def orgAStr : String := "org/a"

def orgBStr : String := "org/b"

def repoAStr : String := "deepseek-ai/model-a"

def userRepoStr : String := "user/repo1"

def repo1Str : String := "repo1"

def mixedPhrase : String := "Yes_Delete_All"

def noPhrase : String := "no"

def errMsgStr : String := "connection error"

/-- A state in which the archive already exists but its metadata file
does not. -/
def fsArchived : DownloadRepos.DlFS :=
  { archive := true, meta := none, scratch := false, scratch2 := false,
    other := fun _ => false }

/-- A state in which nothing exists yet. -/
def fsEmpty : DownloadRepos.DlFS :=
  { archive := false, meta := none, scratch := false, scratch2 := false,
    other := fun _ => false }

/-- A state in which the archive is absent but a stale metadata file
from an earlier run persists. -/
def fsStaleMeta : DownloadRepos.DlFS :=
  { archive := false, meta := some repoAStr, scratch := false,
    scratch2 := false, other := fun _ => false }

/-- A state for the root download script in which the tar archive
already exists. -/
def tarFsOut : RootDownload.TarFS :=
  { out := true, tmp := false, other := fun _ => false }

/-- A remote listing with a single model repository and no datasets or
spaces. -/
def listingsOne :
    CleanHfAccount.RepoKind → Except Unit (List String) := fun k =>
  match k with
  | CleanHfAccount.RepoKind.model => Except.ok [userRepoStr]
  | CleanHfAccount.RepoKind.dataset => Except.ok []
  | CleanHfAccount.RepoKind.space => Except.ok []

/-- Deletion oracle: every attempt succeeds. -/
def okAlways : String × CleanHfAccount.RepoKind → Nat → Bool :=
  fun _ _ => true

/-- An identifier whose name segment contains an underscore: the slug
round trip cannot recover it. -/
def underscoreNameId : String := "org/a_b"

/-- An identifier with no underscore in either segment whose name
segment contains `.bundle` as a substring: the stated round trip also
fails on it, because `replace('.bundle', '')` removes every
occurrence. -/
def dotBundleId : String := "org/x.bundle"

def orgXStr : String := "org/x"

/-- A batch-extraction environment where both bundles are downloaded,
nothing is extracted yet, and no companion LFS bundle exists. -/
def envCex : SelectiveExtract.ExtractEnv :=
  { downloaded := [pyReplace orgAStr slashStr underscoreStr,
      pyReplace orgBStr slashStr underscoreStr],
    extractedExists := fun _ => false,
    lfsExists := fun _ => false,
    cloneOk := fun _ => true,
    importOk := fun _ => true,
    checkoutOk := fun _ => true }

end DSHelper

namespace DSHelper

/-! Helper lemmas (shared). -/

theorem insertLe_mem {α : Type} (le : α → α → Bool) (a x : α)
    (l : List α) : x ∈ RepoSizes.insertLe le a l ↔ x = a ∨ x ∈ l := by
  induction l with
  | nil => simp [RepoSizes.insertLe]
  | cons b bs ih =>
    simp only [RepoSizes.insertLe]
    split
    · simp [List.mem_cons]
    · simp only [List.mem_cons, ih]
      tauto

theorem insertLe_pairwise {α : Type} (le : α → α → Bool)
    (htot : ∀ a b, le a b = true ∨ le b a = true)
    (htrans : ∀ a b c, le a b = true → le b c = true → le a c = true)
    (a : α) (l : List α) (h : l.Pairwise fun x y => le x y = true) :
    (RepoSizes.insertLe le a l).Pairwise fun x y => le x y = true := by
  induction l with
  | nil => simp [RepoSizes.insertLe]
  | cons b bs ih =>
    rcases List.pairwise_cons.mp h with ⟨hb, hbs⟩
    simp only [RepoSizes.insertLe]
    split
    · rename_i hab
      refine List.pairwise_cons.mpr ⟨?_, h⟩
      intro y hy
      rcases List.mem_cons.mp hy with rfl | hybs
      · exact hab
      · exact htrans a b y hab (hb y hybs)
    · rename_i hab
      have hba : le b a = true := (htot a b).resolve_left hab
      refine List.pairwise_cons.mpr ⟨?_, ih hbs⟩
      intro y hy
      rcases (insertLe_mem le a y bs).mp hy with rfl | hybs
      · exact hba
      · exact hb y hybs

theorem sortLe_pairwise {α : Type} (le : α → α → Bool)
    (htot : ∀ a b, le a b = true ∨ le b a = true)
    (htrans : ∀ a b c, le a b = true → le b c = true → le a c = true)
    (l : List α) :
    (RepoSizes.sortLe le l).Pairwise fun x y => le x y = true := by
  induction l with
  | nil => simp [RepoSizes.sortLe]
  | cons a as ih => exact insertLe_pairwise le htot htrans a _ ih

theorem verify_foldl_valid_eq_lfs
    (rs : List (String × Bool × (Bool × String)))
    (acc : VerifyRepos.VerifyResults)
    (h : acc.valid = acc.lfs_repos) :
    (rs.foldl VerifyRepos.verifyStep acc).valid =
      (rs.foldl VerifyRepos.verifyStep acc).lfs_repos := by
  induction rs generalizing acc with
  | nil => exact h
  | cons r rest ih =>
    simp only [List.foldl_cons]
    apply ih
    simp only [VerifyRepos.verifyStep]
    split
    · exact h
    · split
      · simp [h]
      · exact h

/-! ### C7 -/

/-- C7: `verify_repository` classifies a nonexistent archive path as
status `missing` (never `invalid`) without invoking the
bundle-verification subprocess, and assigns status `invalid` only to a
bundle that exists and fails `verify_bundle`. -/
theorem c7_missing_vs_invalid :
    ∀ bv : Bool × String,
      (VerifyRepos.verify_repository false bv =
        { valid_bundle := false, errors := [VerifyRepos.bundleMissingMsg],
          status := VerifyRepos.statusMissing, ranVerify := false }) ∧
      (∀ ex : Bool,
        (VerifyRepos.verify_repository ex bv).status =
            VerifyRepos.statusInvalid →
          ex = true ∧ bv.1 = false) := by
  intro bv
  refine ⟨rfl, ?_⟩
  intro ex h
  cases ex with
  | false =>
    exact absurd h (by simp [VerifyRepos.verify_repository,
      VerifyRepos.statusMissing, VerifyRepos.statusInvalid])
  | true =>
    refine ⟨rfl, ?_⟩
    rcases hb : bv.1 with _ | _
    · rfl
    · exact absurd h (by simp [VerifyRepos.verify_repository, hb,
        VerifyRepos.statusValid, VerifyRepos.statusInvalid])

/-- Witness for C7 at a concrete input: an existing bundle that fails
verification is the only way to get status `invalid`. -/
theorem c7_missing_vs_invalid_witness :
    true = true ∧ ((false, errMsgStr) : Bool × String).1 = false :=
  (c7_missing_vs_invalid (false, errMsgStr)).2 true rfl

/-! ### C8 -/

/-- C8 counterexample: in `download_deepseek_repos.py`, a failure of
the remote listing call makes `get_deepseek_repos` terminate the
process via `sys.exit(1)` instead of returning an empty list. -/
theorem c8_counterexample :
    RootDownload.get_deepseek_repos (Except.error errMsgStr) =
        Except.error 1 ∧
      RootDownload.get_deepseek_repos (Except.error errMsgStr) ≠
        Except.ok [] := by
  refine ⟨rfl, ?_⟩
  intro h
  exact Except.noConfusion h

/-- C8 amended: in `deepseek_manager/scripts/download_repos.py`, a
listing failure makes `get_deepseek_repos` return the empty list and
the caller exits normally with the no-repositories message; in the
top-level `download_deepseek_repos.py`, the same failure instead
terminates the process with exit code 1. -/
theorem c8_amended :
    ∀ e : String,
      DownloadRepos.get_deepseek_repos (Except.error e) = [] ∧
      DownloadRepos.main_list_phase (Except.error e) =
        DownloadRepos.ListPhaseOutcome.exitNoRepos ∧
      RootDownload.get_deepseek_repos
          ((Except.error e : Except String (List (String × Nat)))) =
        Except.error 1 :=
  fun _ => ⟨rfl, rfl, rfl⟩

/-! ### C9 -/

/-- C9: sorting with order `asc` arranges the repository list by size
ascending and `desc` by size descending; on the listing
`[(org/a, 100), (org/b, 50)]` with `asc` the order is
`[org/b, org/a]`. -/
theorem c9_sort_by_size :
    (∀ l, (RepoSizes.get_deepseek_repo_sizes RepoSizes.ascStr l).Pairwise
      fun a b => a.2 ≤ b.2) ∧
    (∀ l, (RepoSizes.get_deepseek_repo_sizes RepoSizes.descStr l).Pairwise
      fun a b => b.2 ≤ a.2) ∧
    RepoSizes.get_deepseek_repo_sizes RepoSizes.ascStr
        [(orgAStr, 100), (orgBStr, 50)] =
      [(orgBStr, 50), (orgAStr, 100)] := by
  refine ⟨?_, ?_, by decide⟩
  · intro l
    have hrev : decide (pyLower RepoSizes.ascStr = RepoSizes.descStr)
        = false := by decide
    simp only [RepoSizes.get_deepseek_repo_sizes, RepoSizes.pySortByKey,
      hrev, if_false, Bool.false_eq_true]
    have := sortLe_pairwise
      (fun a b : String × Nat => Nat.ble a.2 b.2)
      (fun a b => by
        rcases Nat.le_total a.2 b.2 with h | h
        · exact Or.inl (Nat.ble_eq.mpr h)
        · exact Or.inr (Nat.ble_eq.mpr h))
      (fun a b c h1 h2 =>
        Nat.ble_eq.mpr (Nat.le_trans (Nat.ble_eq.mp h1) (Nat.ble_eq.mp h2)))
      l
    exact this.imp fun h => Nat.ble_eq.mp h
  · intro l
    have hrev : decide (pyLower RepoSizes.descStr = RepoSizes.descStr)
        = true := by decide
    simp only [RepoSizes.get_deepseek_repo_sizes, RepoSizes.pySortByKey,
      hrev, if_true]
    have := sortLe_pairwise
      (fun a b : String × Nat => Nat.ble b.2 a.2)
      (fun a b => by
        rcases Nat.le_total b.2 a.2 with h | h
        · exact Or.inl (Nat.ble_eq.mpr h)
        · exact Or.inr (Nat.ble_eq.mpr h))
      (fun a b c h1 h2 =>
        Nat.ble_eq.mpr (Nat.le_trans (Nat.ble_eq.mp h2) (Nat.ble_eq.mp h1)))
      l
    exact this.imp fun h => Nat.ble_eq.mp h

/-! ### C10 -/

/-- C10: in the batch verification run, every repository whose bundle
passes structural verification is appended to both the valid list and
the LFS list, so the two lists are always identical, regardless of
metadata or actual LFS usage. -/
theorem c10_valid_eq_lfs :
    ∀ rs, (VerifyRepos.run_verification rs).valid =
      (VerifyRepos.run_verification rs).lfs_repos :=
  fun rs => verify_foldl_valid_eq_lfs rs _ rfl

end DSHelper

namespace DSHelper

/-- Helper: when the archive already exists, `download_repo` is a pure
skip. -/
theorem download_repo_skip (id : String) (c i1 i2 i3 m : Bool)
    (fs : DownloadRepos.DlFS) (h : fs.archive = true) :
    DownloadRepos.download_repo id c i1 i2 i3 m fs = (true, fs, []) := by
  simp [DownloadRepos.download_repo, h]

/-- Helper: a `true` return from `download_repo` leaves the archive in
place. -/
theorem download_repo_true_archive (id : String) (c i1 i2 i3 m : Bool)
    (fs : DownloadRepos.DlFS)
    (h : (DownloadRepos.download_repo id c i1 i2 i3 m fs).1 = true) :
    (DownloadRepos.download_repo id c i1 i2 i3 m fs).2.1.archive = true := by
  cases hfa : fs.archive <;> cases c <;> cases i1 <;> cases i2 <;>
    cases i3 <;> cases m <;>
    simp_all [DownloadRepos.download_repo, DownloadRepos.download_repository,
      hfa]

/-! ### C3 -/

/-- C3: when the archive already exists at the resolved path, the
download step performs no subprocess or network action, leaves the
state unchanged and returns `true`; hence a second run after a
successful first run is a skip with the same reported status.  The
same skip holds for the root script's `download_repo` when `force` is
not set. -/
theorem c3_existing_archive_skip :
    (∀ (id : String) (c i1 i2 i3 m : Bool) (fs : DownloadRepos.DlFS),
      fs.archive = true →
      DownloadRepos.download_repo id c i1 i2 i3 m fs = (true, fs, [])) ∧
    (∀ (id id2 : String) (c i1 i2 i3 m c2 j1 j2 j3 m2 : Bool)
        (fs : DownloadRepos.DlFS),
      (DownloadRepos.download_repo id c i1 i2 i3 m fs).1 = true →
      DownloadRepos.download_repo id2 c2 j1 j2 j3 m2
          (DownloadRepos.download_repo id c i1 i2 i3 m fs).2.1 =
        (true, (DownloadRepos.download_repo id c i1 i2 i3 m fs).2.1, [])) ∧
    (∀ (g w : Bool) (fs : RootDownload.TarFS),
      fs.out = true →
      RootDownload.download_repo false g w fs = (Except.ok true, fs, [])) := by
  refine ⟨download_repo_skip, ?_, ?_⟩
  · intro id id2 c i1 i2 i3 m c2 j1 j2 j3 m2 fs h
    exact download_repo_skip id2 c2 j1 j2 j3 m2 _
      (download_repo_true_archive id c i1 i2 i3 m fs h)
  · intro g w fs h
    simp [RootDownload.download_repo, h]

/-- Witness for C3 at concrete inputs. -/
theorem c3_existing_archive_skip_witness :
    DownloadRepos.download_repo repoAStr true true true true true
        fsArchived = (true, fsArchived, []) ∧
    RootDownload.download_repo false true true tarFsOut =
      (Except.ok true, tarFsOut, []) :=
  ⟨c3_existing_archive_skip.1 repoAStr true true true true true
      fsArchived rfl,
    c3_existing_archive_skip.2.2 true true tarFsOut rfl⟩

/-! ### C5 -/

/-- C5: on every exit path of `download_repo` the two scratch clone
directories do not persist, and no location other than the archive
path and its metadata path is modified. -/
theorem c5_scratch_cleanup :
    ∀ (id : String) (c i1 i2 i3 m : Bool) (fs : DownloadRepos.DlFS),
      fs.scratch = false → fs.scratch2 = false →
      (DownloadRepos.download_repo id c i1 i2 i3 m fs).2.1.scratch = false ∧
      (DownloadRepos.download_repo id c i1 i2 i3 m fs).2.1.scratch2
          = false ∧
      ∀ n, (DownloadRepos.download_repo id c i1 i2 i3 m fs).2.1.other n =
        fs.other n := by
  intro id c i1 i2 i3 m fs h1 h2
  cases hfa : fs.archive <;> cases c <;> cases i1 <;> cases i2 <;>
    cases i3 <;> cases m <;>
    simp_all [DownloadRepos.download_repo, DownloadRepos.download_repository,
      hfa]

/-- Witness for C5 at a concrete input. -/
theorem c5_scratch_cleanup_witness :
    (DownloadRepos.download_repo repoAStr true false true true true
        fsEmpty).2.1.scratch = false ∧
    (DownloadRepos.download_repo repoAStr true false true true true
        fsEmpty).2.1.scratch2 = false ∧
    (DownloadRepos.download_repo repoAStr true false true true true
        fsEmpty).2.1.other 0 = fsEmpty.other 0 :=
  ⟨(c5_scratch_cleanup repoAStr true false true true true fsEmpty
      rfl rfl).1,
    (c5_scratch_cleanup repoAStr true false true true true fsEmpty
      rfl rfl).2.1,
    (c5_scratch_cleanup repoAStr true false true true true fsEmpty
      rfl rfl).2.2 0⟩

/-! ### C6 -/

/-- C6 counterexample, refuting both clauses of the claim.  True
branch: starting from a state where the archive exists but its
metadata file does not, `download_repo` returns `true` (the skip path
checks only the archive), yet the metadata file still does not exist.
False branch: starting from a state with no archive but a stale
metadata file, a bundle-creation failure makes `download_repo` return
`false` via the line-206 path, which never touches the metadata path,
so the metadata file still exists. -/
theorem c6_counterexample :
    ((DownloadRepos.download_repo repoAStr true true true true true
        fsArchived).1 = true ∧
      (DownloadRepos.download_repo repoAStr true true true true true
        fsArchived).2.1.archive = true ∧
      (DownloadRepos.download_repo repoAStr true true true true true
        fsArchived).2.1.meta = none) ∧
    ((DownloadRepos.download_repo repoAStr true true true false true
        fsStaleMeta).1 = false ∧
      (DownloadRepos.download_repo repoAStr true true true false true
        fsStaleMeta).2.1.meta = some repoAStr) :=
  ⟨⟨rfl, rfl, rfl⟩, ⟨rfl, rfl⟩⟩

/-- C6 amended: after `download_repo` returns: on a fresh download
(archive absent at entry) that returns `true`, both the archive and
the metadata exist and the metadata records `repo_id` equal to the
identifier; if the archive pre-existed, `true` is returned with the
state unchanged (metadata not guaranteed).  If `false` is returned the
archive does not exist, and the metadata file is exactly as follows:
on the bundle-creation failure path (working clone succeeded, a step
inside `download_repository` failed — the line-206 return, which never
touches the metadata path) it keeps whatever value it had at entry; on
every other `false` path (clone failure, metadata-stage failure) the
`except` block has unlinked it. -/
theorem c6_amended :
    ∀ (id : String) (c i1 i2 i3 m : Bool) (fs : DownloadRepos.DlFS),
      (fs.archive = false →
        (DownloadRepos.download_repo id c i1 i2 i3 m fs).1 = true →
        (DownloadRepos.download_repo id c i1 i2 i3 m fs).2.1.archive
            = true ∧
        (DownloadRepos.download_repo id c i1 i2 i3 m fs).2.1.meta
            = some id) ∧
      (fs.archive = true →
        (DownloadRepos.download_repo id c i1 i2 i3 m fs).1 = true ∧
        (DownloadRepos.download_repo id c i1 i2 i3 m fs).2.1 = fs) ∧
      ((DownloadRepos.download_repo id c i1 i2 i3 m fs).1 = false →
        (DownloadRepos.download_repo id c i1 i2 i3 m fs).2.1.archive
            = false ∧
        (DownloadRepos.download_repo id c i1 i2 i3 m fs).2.1.meta
            = (if c = true ∧ (i1 = false ∨ i2 = false ∨ i3 = false)
               then fs.meta else none)) := by
  intro id c i1 i2 i3 m fs
  cases hfa : fs.archive <;> cases c <;> cases i1 <;> cases i2 <;>
    cases i3 <;> cases m <;>
    simp_all [DownloadRepos.download_repo, DownloadRepos.download_repository,
      hfa]

/-- Witness for C6 (amended) at concrete inputs: a fresh successful
download leaves archive plus metadata recording the identifier, and a
clone failure leaves neither archive nor metadata. -/
theorem c6_amended_witness :
    ((DownloadRepos.download_repo repoAStr true true true true true
        fsEmpty).2.1.archive = true ∧
      (DownloadRepos.download_repo repoAStr true true true true true
        fsEmpty).2.1.meta = some repoAStr) ∧
    ((DownloadRepos.download_repo repoAStr false true true true true
        fsStaleMeta).2.1.archive = false ∧
      (DownloadRepos.download_repo repoAStr false true true true true
        fsStaleMeta).2.1.meta = none) :=
  ⟨(c6_amended repoAStr true true true true true fsEmpty).1 rfl rfl,
    (c6_amended repoAStr false true true true true fsStaleMeta).2.2 rfl⟩

end DSHelper

namespace DSHelper

/-- Helper: the retry loop always makes at least one deletion
attempt. -/
theorem attemptsUsed_pos (ok : Nat → Bool) :
    CleanHfAccount.attemptsUsed ok ≠ 0 := by
  unfold CleanHfAccount.attemptsUsed
  cases h0 : ok 0 <;> cases h1 : ok 1 <;> simp

/-! ### C1 -/

/-- C1 counterexample: the phrase `Yes_Delete_All` differs from the
prompted confirmation string `YES_DELETE_ALL` and from the compared
literal `yes_delete_all`, yet `delete_all_repos` still performs a
deletion call, because the guard compares after lowercasing — so
deletion is not restricted to an exact phrase match. -/
theorem c1_counterexample :
    CleanHfAccount.delete_all_repos mixedPhrase listingsOne okAlways =
        [(repo1Str, CleanHfAccount.RepoKind.model)] ∧
      mixedPhrase ≠ CleanHfAccount.promptedPhrase ∧
      mixedPhrase ≠ CleanHfAccount.requiredPhrase := by
  refine ⟨by decide, by decide, by decide⟩

/-- C1 amended: `delete_all_repos` performs zero deletion calls exactly
when the lowercased confirmation phrase differs from
`yes_delete_all` (or the enumeration is empty); whenever the lowercased
phrase matches and the enumeration is nonempty, deletion calls occur. -/
theorem c1_amended :
    ∀ (conf : String)
      (listings : CleanHfAccount.RepoKind → Except Unit (List String))
      (ok : String × CleanHfAccount.RepoKind → Nat → Bool),
      (pyLower conf ≠ CleanHfAccount.requiredPhrase →
        CleanHfAccount.delete_all_repos conf listings ok = []) ∧
      (pyLower conf = CleanHfAccount.requiredPhrase →
        CleanHfAccount.collectRepos listings ≠ [] →
        CleanHfAccount.delete_all_repos conf listings ok ≠ []) := by
  intro conf listings ok
  constructor
  · intro h
    simp [CleanHfAccount.delete_all_repos, h]
  · intro h hne
    simp only [CleanHfAccount.delete_all_repos, h, ne_eq,
      not_true_eq_false, if_false, List.isEmpty_iff, hne]
    cases hcr : CleanHfAccount.collectRepos listings with
    | nil => exact absurd hcr hne
    | cons r rs =>
      simp only [List.flatMap_cons, ne_eq, List.append_eq_nil,
        List.replicate_eq_nil_iff, not_and]
      intro hrep
      exact absurd hrep (attemptsUsed_pos (ok r))

/-- Witness for C1 (amended) at concrete inputs: the phrase `no`
aborts with zero calls; the prompted phrase `YES_DELETE_ALL` (whose
lowercasing matches) triggers calls on a nonempty listing. -/
theorem c1_amended_witness :
    CleanHfAccount.delete_all_repos noPhrase listingsOne okAlways = [] ∧
      CleanHfAccount.delete_all_repos CleanHfAccount.promptedPhrase
        listingsOne okAlways ≠ [] :=
  ⟨(c1_amended noPhrase listingsOne okAlways).1 (by decide),
    (c1_amended CleanHfAccount.promptedPhrase listingsOne okAlways).2
      (by decide) (by decide)⟩

/-! ### C2 -/

/-- C2 counterexample: a batch of two downloaded repositories where the
first lacks its companion LFS bundle.  The loop raises
`FileNotFoundError` out of `extract_selected_repos` (the outcome is an
escaped exception, not a per-item failure count), and the second
repository is never processed. -/
theorem c2_counterexample :
    SelectiveExtract.extract_selected_repos envCex [orgAStr, orgBStr] =
        ([orgAStr],
          Except.error (SelectiveExtract.missingLfsMsg
            (SelectiveExtract.get_archive_path orgAStr))) ∧
      orgBStr ∉
        (SelectiveExtract.extract_selected_repos envCex
          [orgAStr, orgBStr]).1 := by
  refine ⟨rfl, by decide⟩

/-- C2 amended: for an archive whose companion LFS bundle is absent,
`extract_from_bundle` raises `FileNotFoundError` naming the missing
bundle; the exception propagates out of the batch loop of
`extract_selected_repos`, so the remaining repositories are not
processed and no per-item failure status is recorded. -/
theorem c2_amended :
    ∀ (env : SelectiveExtract.ExtractEnv) (repoId : String)
      (rest : List String) (acc : SelectiveExtract.ExtractSummary),
      pyReplace repoId slashStr underscoreStr ∈ env.downloaded →
      env.extractedExists (pyReplace repoId slashStr underscoreStr)
          = false →
      env.lfsExists (pyReplace repoId slashStr underscoreStr) = false →
      SelectiveExtract.extract_selected_loop env (repoId :: rest) acc =
        ([repoId],
          Except.error (SelectiveExtract.missingLfsMsg
            (SelectiveExtract.get_archive_path repoId))) := by
  intro env repoId rest acc h1 h2 h3
  simp [SelectiveExtract.extract_selected_loop, h1, h2, h3,
    SelectiveExtract.extract_from_bundle]

/-- Witness for C2 (amended) at a concrete input. -/
theorem c2_amended_witness :
    SelectiveExtract.extract_selected_loop envCex [orgAStr, orgBStr]
        ⟨0, 0, 0, 0⟩ =
      ([orgAStr],
        Except.error (SelectiveExtract.missingLfsMsg
          (SelectiveExtract.get_archive_path orgAStr))) :=
  c2_amended envCex orgAStr [orgBStr] ⟨0, 0, 0, 0⟩ (by decide) rfl rfl

end DSHelper

namespace DSHelper

/-! Helper lemmas for the slug round trip (C4). -/

theorem isSuffixOf_append_self (l t : List Char) :
    l.isSuffixOf (t ++ l) = true :=
  ( List.isSuffixOf_iff_suffix).mpr (List.suffix_append t l)

theorem containsSub_of_starts (pat s : List Char) (h : pat <+: s) :
    containsSub pat s = true := by
  cases s with
  | nil =>
    have hp : pat = [] := List.prefix_nil.mp h
    subst hp
    rfl
  | cons c rest =>
    have hb : pat.isPrefixOf (c :: rest) = true :=
      ( List.isPrefixOf_iff_prefix).mpr h
    simp [containsSub, hb]

/-- If `pat` has no self-overlap (no nonempty proper suffix of `pat`
is a prefix of `pat`) and does not occur in `slug`, then `pat` is not
a prefix of `slug ++ pat` for nonempty `slug`: the replacement scan
first matches `pat` exactly at the end. -/
theorem no_cross_occurrence (pat slug : List Char) (_hne : pat ≠ [])
    (hnb : ∀ k, 0 < k → k < pat.length →
      (pat.drop k).isPrefixOf pat = false)
    (hsub : containsSub pat slug = false) (hslug : slug ≠ []) :
    pat.isPrefixOf (slug ++ pat) = false := by
  cases hb : pat.isPrefixOf (slug ++ pat) with
  | false => rfl
  | true =>
    exfalso
    have hp : pat <+: slug ++ pat := ( List.isPrefixOf_iff_prefix).mp hb
    obtain ⟨t, ht⟩ := hp
    rcases le_or_lt pat.length slug.length with hle | hlt
    · have h1 : (pat ++ t).take pat.length = pat := List.take_left' rfl
      have h2 : (slug ++ pat).take pat.length = slug.take pat.length :=
        List.take_append_of_le_length hle
      have h3 : pat = slug.take pat.length := by rw [← h2, ← ht, h1]
      have h4 : pat <+: slug := by
        have h5 := List.take_prefix pat.length slug
        rwa [← h3] at h5
      have h6 := containsSub_of_starts pat slug h4
      rw [hsub] at h6
      exact Bool.noConfusion h6
    · have h1 : (pat ++ t).drop slug.length = pat.drop slug.length ++ t :=
        List.drop_append_of_le_length (Nat.le_of_lt hlt)
      have h2 : (slug ++ pat).drop slug.length = pat := List.drop_left slug pat
      have h3 : pat.drop slug.length ++ t = pat := by rw [← h1, ht, h2]
      have h4 : (pat.drop slug.length).isPrefixOf pat = true :=
        ( List.isPrefixOf_iff_prefix).mpr ⟨t, h3⟩
      have h5 := hnb slug.length (List.length_pos.mpr hslug) hlt
      rw [h5] at h4
      exact Bool.noConfusion h4

/-- Replacing a single-character pattern is a character map. -/
theorem pyReplaceAux_single (c d : Char) (s : List Char) :
    ∀ fuel : Nat, s.length ≤ fuel →
      pyReplaceAux [c] [d] fuel s =
        s.map (fun x => if x = c then d else x) := by
  induction s with
  | nil =>
    intro fuel _
    cases fuel <;> rfl
  | cons x rest ih =>
    intro fuel h
    cases fuel with
    | zero => simp at h
    | succ f =>
      have hf : rest.length ≤ f := by
        simp only [List.length_cons] at h
        omega
      by_cases hx : x = c
      · subst hx
        have hcond : ([x] ≠ []) ∧ [x].isPrefixOf (x :: rest) = true :=
          ⟨by simp, by simp [List.isPrefixOf]⟩
        have hdrop : (x :: rest).drop [x].length = rest := by simp
        simp only [pyReplaceAux, if_pos hcond]
        rw [hdrop, ih f hf]
        simp
      · have hcond : ¬ (([c] ≠ []) ∧ [c].isPrefixOf (x :: rest) = true) := by
          intro hc
          have h2 := hc.2
          simp [List.isPrefixOf] at h2
          exact hx h2.symm
        simp only [pyReplaceAux, if_neg hcond, List.map_cons, if_neg hx]
        rw [ih f hf]

theorem map_subst_of_not_mem (c d : Char) (l : List Char) (h : c ∉ l) :
    l.map (fun x => if x = c then d else x) = l := by
  induction l with
  | nil => rfl
  | cons a as ih =>
    simp only [List.mem_cons, not_or] at h
    simp only [List.map_cons]
    rw [if_neg (fun hac => h.1 hac.symm), ih h.2]

/-- Stripping a trailing self-overlap-free pattern that does not occur
in `slug` returns `slug` (the replacement with the empty string). -/
theorem pyReplaceAux_strip (pat : List Char) (hne : pat ≠ [])
    (hnb : ∀ k, 0 < k → k < pat.length →
      (pat.drop k).isPrefixOf pat = false) :
    ∀ (slug : List Char) (fuel : Nat),
      containsSub pat slug = false → (slug ++ pat).length ≤ fuel →
      pyReplaceAux pat [] fuel (slug ++ pat) = slug := by
  intro slug
  induction slug with
  | nil =>
    intro fuel hsub hfuel
    obtain ⟨p, pt, hpat⟩ : ∃ p pt, pat = p :: pt := by
      cases pat with
      | nil => exact absurd rfl hne
      | cons p pt => exact ⟨p, pt, rfl⟩
    cases fuel with
    | zero =>
      rw [hpat] at hfuel
      simp at hfuel
    | succ f =>
      have hself : pat.isPrefixOf pat = true :=
        ( List.isPrefixOf_iff_prefix).mpr ⟨[], by simp⟩
      rw [List.nil_append, hpat]
      simp only [pyReplaceAux]
      rw [if_pos ⟨by simp, by rw [← hpat]; exact hself⟩]
      rw [show (p :: pt).drop (p :: pt).length = [] from
        List.drop_length (p :: pt)]
      cases f <;> rfl
  | cons c rest ih =>
    intro fuel hsub hfuel
    cases fuel with
    | zero => simp at hfuel
    | succ f =>
      have hsub2 : containsSub pat rest = false := by
        simp only [containsSub, Bool.or_eq_false_iff] at hsub
        exact hsub.2
      have hpf : pat.isPrefixOf ((c :: rest) ++ pat) = false :=
        no_cross_occurrence pat (c :: rest) hne hnb hsub (by simp)
      simp only [List.cons_append] at hpf ⊢
      simp only [pyReplaceAux]
      rw [if_neg (fun hc => by rw [hpf] at hc; exact Bool.noConfusion hc.2)]
      have hf : (rest ++ pat).length ≤ f := by
        simp only [List.cons_append, List.length_cons] at hfuel
        omega
      rw [ih f hsub2 hf]

/-- No nonempty proper suffix of `.bundle` is one of its prefixes. -/
theorem bundleExt_no_border :
    ∀ k, 0 < k → k < bundleExtL.length →
      (bundleExtL.drop k).isPrefixOf bundleExtL = false := by
  intro k h1 h2
  have h7 : bundleExtL.length = 7 := rfl
  rw [h7] at h2
  interval_cases k <;> decide

/-- The slug round trip at the character level: for an `owner/name`
identifier with no underscore in either segment and no `.bundle`
occurrence in its slug, `get_downloaded_repos` applied to exactly the
produced bundle file name recovers exactly the identifier. -/
theorem round_trip_recovers (owner name : List Char)
    (ho : ('/' : Char) ∉ owner) (hn : ('/' : Char) ∉ name)
    (ho2 : ('_' : Char) ∉ owner) (hn2 : ('_' : Char) ∉ name)
    (hsub : containsSub bundleExtL (owner ++ '_' :: name) = false) :
    UtilsCommon.get_downloaded_repos
      [UtilsCommon.get_archive_filename ⟨owner ++ '/' :: name⟩] =
      [(⟨owner ++ '/' :: name⟩ : String)] := by
  have hone : pyReplaceAux ['/'] ['_'] (owner ++ '/' :: name).length
      (owner ++ '/' :: name) = owner ++ '_' :: name := by
    rw [pyReplaceAux_single '/' '_' (owner ++ '/' :: name)
      (owner ++ '/' :: name).length (Nat.le_refl _)]
    rw [List.map_append, map_subst_of_not_mem _ _ _ ho]
    simp only [List.map_cons]
    rw [map_subst_of_not_mem _ _ _ hn]
    simp
  have hfile : UtilsCommon.get_archive_filename ⟨owner ++ '/' :: name⟩ =
      ⟨(owner ++ '_' :: name) ++ bundleExtL⟩ := by
    apply String.ext
    show pyReplaceAux ['/'] ['_'] (owner ++ '/' :: name).length
        (owner ++ '/' :: name) ++ bundleExtL =
      (owner ++ '_' :: name) ++ bundleExtL
    rw [hone]
  have hsuf : bundleExtL.isSuffixOf
      (UtilsCommon.get_archive_filename ⟨owner ++ '/' :: name⟩).data
        = true := by
    rw [hfile]
    exact isSuffixOf_append_self bundleExtL (owner ++ '_' :: name)
  have hstrip : pyReplace
      (UtilsCommon.get_archive_filename ⟨owner ++ '/' :: name⟩)
      bundleExtStr emptyStr = ⟨owner ++ '_' :: name⟩ := by
    rw [hfile]
    apply String.ext
    show pyReplaceAux bundleExtL []
        ((owner ++ '_' :: name) ++ bundleExtL).length
        ((owner ++ '_' :: name) ++ bundleExtL) = owner ++ '_' :: name
    exact pyReplaceAux_strip bundleExtL (by decide) bundleExt_no_border
      (owner ++ '_' :: name) _ hsub (Nat.le_refl _)
  have hback : pyReplace (⟨owner ++ '_' :: name⟩ : String)
      underscoreStr slashStr = ⟨owner ++ '/' :: name⟩ := by
    apply String.ext
    show pyReplaceAux ['_'] ['/'] (owner ++ '_' :: name).length
        (owner ++ '_' :: name) = owner ++ '/' :: name
    rw [pyReplaceAux_single '_' '/' (owner ++ '_' :: name)
      (owner ++ '_' :: name).length (Nat.le_refl _)]
    rw [List.map_append, map_subst_of_not_mem _ _ _ ho2]
    simp only [List.map_cons]
    rw [map_subst_of_not_mem _ _ _ hn2]
    simp
  simp only [UtilsCommon.get_downloaded_repos, List.filter_cons, hsuf,
    List.filter_nil, List.map_cons, List.map_nil, if_true]
  rw [hstrip, hback]

/-! ### C4 -/

/-- C4 counterexample: `org/x.bundle` has no underscore in either
segment, yet the archives directory holding exactly its bundle makes
`get_downloaded_repos` return `org/x`, not the original identifier:
`replace('.bundle', '')` removes every occurrence of `.bundle`, not
only the file extension. -/
theorem c4_counterexample :
    (('_' : Char) ∉ dotBundleId.data) ∧
    UtilsCommon.get_downloaded_repos
        [UtilsCommon.get_archive_filename dotBundleId] = [orgXStr] ∧
    UtilsCommon.get_downloaded_repos
        [UtilsCommon.get_archive_filename dotBundleId] ≠ [dotBundleId] :=
  ⟨by decide, by decide, by decide⟩

/-- C4 amended: for every identifier `owner/name` in which neither
segment contains an underscore and whose slug does not contain
`.bundle` as a substring, an archives directory holding exactly the
produced bundle makes `get_downloaded_repos` return exactly the
original identifier; and the recovery fails for the identifier
`org/a_b`, whose name segment contains an underscore. -/
theorem c4_amended :
    (∀ owner name : List Char,
      ('/' : Char) ∉ owner → ('/' : Char) ∉ name →
      ('_' : Char) ∉ owner → ('_' : Char) ∉ name →
      containsSub bundleExtL (owner ++ '_' :: name) = false →
      UtilsCommon.get_downloaded_repos
        [UtilsCommon.get_archive_filename ⟨owner ++ '/' :: name⟩] =
        [(⟨owner ++ '/' :: name⟩ : String)]) ∧
    UtilsCommon.get_downloaded_repos
        [UtilsCommon.get_archive_filename underscoreNameId] ≠
      [underscoreNameId] :=
  ⟨round_trip_recovers, by decide⟩

/-- Witness for C4 (amended) at a concrete identifier. -/
theorem c4_amended_witness :
    UtilsCommon.get_downloaded_repos
        [UtilsCommon.get_archive_filename
          ⟨"deepseek-ai".data ++ '/' :: "model".data⟩] =
      [(⟨"deepseek-ai".data ++ '/' :: "model".data⟩ : String)] :=
  c4_amended.1 "deepseek-ai".data "model".data (by decide) (by decide)
    (by decide) (by decide) (by decide)

end DSHelper
